import Mathlib

/-!
Verification development for the real-time job-progress subscription system
(server `websocketService.ts`, pipeline `videoProcessor.ts`, client hook
`useSocket.ts`).

The TypeScript source is shallowly embedded: connections are identified by
natural-number ids, the per-job subscriber registry (a JS object mapping
`jobId.toString()` to a `Set` of sockets) is a function `Nat → Option (List Nat)`
whose `none` means "no entry for this job id" and whose lists are kept
duplicate-free exactly as a JS `Set` is, and fallible external calls
(session store, storage) are passed in as explicit function arguments
returning `Option`/`Except`.  JavaScript truthiness of strings and numbers
(`""` and `0` are falsy) is modelled explicitly wherever the source relies
on it (`||` defaults, `if (x)` guards).
-/

namespace Livo

/-- JS-`Set.add` on a duplicate-free list: append iff not already present. -/
def jsSetAdd (s : List Nat) (x : Nat) : List Nat :=
  if x ∈ s then s else s ++ [x]

/-- JS string truthiness: `undefined`/`null` and `""` are falsy. -/
def jsTruthyStr : Option String → Bool
  | none => false
  | some s => s ≠ ""

/-- JS `a || d` for an optional string against a string default:
`null`/`undefined` and `""` fall through to the default. -/
def jsOrStr (a : Option String) (d : String) : String :=
  match a with
  | none => d
  | some s => if s = "" then d else s

/-- JS `a || null` for an optional string: `""` collapses to `null`. -/
def jsOrNull (a : Option String) : Option String :=
  match a with
  | none => none
  | some s => if s = "" then none else some s

/-- A row of the `jobs` table as read through `storage.getJob`.
`status`, `progress`, `currentStep`, `errorMessage` are nullable columns. -/
structure JobRec where
  userId : String
  documentId : Nat
  status : Option String
  progress : Option Nat
  currentStep : Option String
  errorMessage : Option String
deriving DecidableEq, Repr

/-- The per-job subscriber registry `this.subscriptions`:
`none` = no entry for the job id, `some l` = the subscriber `Set`
(represented as a duplicate-free list of connection ids). -/
def SubMap := Nat → Option (List Nat)

/-- Authentication-relevant state of an `AuthenticatedWebSocket`. -/
structure Conn where
  id : Nat
  isAuthenticated : Bool
  userId : Option String
deriving DecidableEq, Repr

/-- Outbound server → client messages (`ws.send(JSON.stringify(...))`). -/
inductive Msg where
  | error (message : String)
  | subscribed (jobId : Nat) (message : String)
  | unsubscribed (jobId : Nat) (message : String)
  | progress (jobId : Nat) (status : String) (progress : Nat)
      (currentStep : String) (errorMessage : Option String)
  | pong
deriving DecidableEq, Repr

/-- `handleSubscription(ws, jobId)` from `websocketService.ts`.

Inputs beyond the socket and job id:
* `getJob` — `storage.getJob`; `Except.error` models the promise rejecting
  (caught by the surrounding `try`), `.ok none` models "job not found";
* `docFetchOk` — whether `storage.getDocument(job.documentId)` resolves
  (its value is discarded by the source, only rejection is observable);
* `m` — the current subscriber registry.

Returns the new registry and the list of messages sent to `ws`, in order. -/
def handleSubscription (ws : Conn) (jobId : Nat)
    (getJob : Nat → Except Unit (Option JobRec)) (docFetchOk : Bool)
    (m : SubMap) : SubMap × List Msg :=
  -- `if (!ws.isAuthenticated || !ws.userId)` — string truthiness on userId
  if ws.isAuthenticated = false ∨ jsTruthyStr ws.userId = false then
    (m, [Msg.error "Authentication required"])
  else
    match getJob jobId with
    | Except.error _ =>
        -- a storage rejection reaches the catch-all: error reply, no mutation
        (m, [Msg.error "Failed to subscribe to job updates"])
    | Except.ok none => (m, [Msg.error "Job not found"])
    | Except.ok (some job) =>
        if (some job.userId ≠ ws.userId) then
          (m, [Msg.error "Unauthorized: You can only access your own jobs"])
        else
          -- initialize the set if absent, then add unless already subscribed
          let subs := (m jobId).getD []
          let m' : SubMap := fun k => if k = jobId then some (jsSetAdd subs ws.id) else m k
          let confirm := Msg.subscribed jobId "Successfully subscribed to job updates"
          if docFetchOk then
            (m', [confirm,
                  Msg.progress jobId (jsOrStr job.status "PENDING")
                    ((job.progress).getD 0)
                    (jsOrStr job.currentStep "Starting...")
                    (jsOrNull job.errorMessage)])
          else
            -- `storage.getDocument` rejected after the confirmation was sent:
            -- the catch-all replies with an error; the insertion stands
            (m', [confirm, Msg.error "Failed to subscribe to job updates"])

/-- `cleanupSubscriptions(ws)` from `websocketService.ts`: for every job id
in the registry, delete `ws` from its set and drop the entry if the set is
empty.  The JS loop over `Object.keys` mutates each entry independently, so
it is embedded pointwise. -/
def cleanupSubscriptions (m : SubMap) (ws : Nat) : SubMap :=
  fun k =>
    match m k with
    | none => none
    | some s =>
        let s' := s.erase ws
        if s' = [] then none else some s'

/-- Transport state of a connection as seen by `broadcastProgress`:
`isOpen` is `ws.readyState === WebSocket.OPEN`, `sendFails` is whether
`ws.send` throws on this sweep. -/
structure ConnIO where
  isOpen : Bool
  sendFails : Bool
deriving DecidableEq, Repr

/-- `broadcastProgress(jobId, progress)` from `websocketService.ts`.

Returns the updated registry together with the list of subscribers to whom
delivery was attempted (`ws.send` called, i.e. those with an open transport),
in set order.  Dead connections — transport not open, or `ws.send` threw —
are collected during the sweep and removed in one pass afterwards; a set
left empty is deleted from the registry.  Per-send exceptions are caught, so
the embedding is a total function: nothing escapes to the caller. -/
def broadcastProgress (io : Nat → ConnIO) (m : SubMap) (jobId : Nat) :
    SubMap × List Nat :=
  match m jobId with
  | none => (m, [])
  | some subs =>
      if subs = [] then (m, [])
      else
        let attempted := subs.filter (fun c => (io c).isOpen)
        -- surviving = not collected in `deadConnections` during the sweep
        let alive := subs.filter (fun c => (io c).isOpen && !(io c).sendFails)
        let m' : SubMap := fun k =>
          if k = jobId then (if alive = [] then none else some alive) else m k
        (m', attempted)

/-! ## Pipeline update step (`videoProcessor.ts`) -/

/-- Observable events of `updateJobProgress`: the `storage.updateJob` write
and the `websocketService.broadcastProgress` fan-out, with the fields each
carries. -/
inductive Event where
  | storeUpdate (jobId : Nat) (status : String) (progress : Nat)
      (currentStep : String) (errorMessage : Option String)
  | broadcast (jobId : Nat) (status : String) (progress : Nat)
      (currentStep : String) (errorMessage : Option String)
deriving DecidableEq, Repr

/-- Status computed by `updateJobProgress`:
`error ? 'FAILED' : (progress === 100 ? 'COMPLETED' : 'PROCESSING')`
(string truthiness: an empty error message is falsy). -/
def progressStatus (progress : Nat) (error : Option String) : String :=
  if jsTruthyStr error then "FAILED"
  else if progress = 100 then "COMPLETED" else "PROCESSING"

/-- `updateJobProgress(jobId, progress, currentStep, error?)` as the ordered
list of events it emits.  `storeOk` is whether `storage.updateJob` resolves;
if it rejects, control jumps to the `catch` and the broadcast never happens. -/
def updateJobProgress (jobId : Nat) (progress : Nat) (currentStep : String)
    (error : Option String) (storeOk : Bool) : List Event :=
  let status := progressStatus progress error
  let em := jsOrNull error
  if storeOk then
    [Event.storeUpdate jobId status progress currentStep em,
     Event.broadcast jobId status progress currentStep em]
  else []

/-- Effect of one event on the external job store (`storage.updateJob` sets
the four fields on the matching row and leaves every other row alone; a
missing row is left missing).  Broadcasts do not touch the store. -/
def applyEvent (store : Nat → Option JobRec) : Event → (Nat → Option JobRec)
  | Event.storeUpdate jobId status progress currentStep errorMessage =>
      fun k =>
        if k = jobId then
          (store k).map (fun j =>
            { j with status := some status, progress := some progress,
                     currentStep := some currentStep,
                     errorMessage := errorMessage })
        else store k
  | Event.broadcast _ _ _ _ _ => store

/-- Run a list of events over the job store, in order. -/
def applyEvents (store : Nat → Option JobRec) : List Event → (Nat → Option JobRec)
  | [] => store
  | e :: es => applyEvents (applyEvent store e) es

/-- A status is terminal when it is `COMPLETED` or `FAILED`. -/
def terminalStatus (s : String) : Bool :=
  s = "COMPLETED" || s = "FAILED"

/-- The sequence of `updateJobProgress` calls a `processVideo` run makes,
as `(progress, currentStep, error)` triples.  The success path issues the
six calls at 10/30/60/80/90/100; a failure after `k` successful progress
calls (`k ≤ 5`: any of the awaited pipeline steps between them can reject)
issues those `k` calls and then the catch handler's
`updateJobProgress(jobId, 0, 'Processing failed', error.message)`. -/
def processVideoCalls (failAfter : Option (Fin 6)) (errMsg : String) :
    List (Nat × String × Option String) :=
  let steps : List (Nat × String × Option String) :=
    [(10, "Analyzing YouTube video...", none),
     (30, "Extracting video captions...", none),
     (60, "Structuring content with AI...", none),
     (80, "Generating document...", none),
     (90, "Saving document...", none),
     (100, "Document created successfully!", none)]
  match failAfter with
  | none => steps
  | some k => steps.take k.val ++ [(0, "Processing failed", some errMsg)]

/-! ## Connection authentication (`websocketService.ts`) -/

/-- JS whitespace for `String.prototype.trim` (the characters that occur
in cookie headers). -/
def jsWhitespace (c : Char) : Bool :=
  c = ' ' || c = '\t' || c = '\n' || c = '\r'

/-- `str.split(sep)` for a one-character separator, at the character level
(so that it evaluates by kernel reduction): `"".split(c)` is `[""]`. -/
def splitOnChar (sep : Char) : List Char → List (List Char)
  | [] => [[]]
  | c :: cs =>
      let r := splitOnChar sep cs
      if c = sep then [] :: r
      else
        match r with
        | [] => [[c]]
        | h :: t => (c :: h) :: t

/-- `str.trim()` at the character level. -/
def trimList (cs : List Char) : List Char :=
  ((cs.dropWhile jsWhitespace).reverse.dropWhile jsWhitespace).reverse

/-- `parts.join(sep)` for a one-character separator. -/
def joinChar (sep : Char) : List (List Char) → List Char
  | [] => []
  | [p] => p
  | p :: ps => p ++ sep :: joinChar sep ps

/-- `parseCookies(cookieHeader)`: split on `;`, trim, split on `=`, keep
pairs with at least one `=` (`parts.length >= 2`), trim the key again and
rejoin the remainder with `=` as the value.  Pairs are accumulated left to
right; a repeated key overwrites (the JS object keeps the last
assignment), which `jsCookieLookup` reflects by taking the last matching
pair. -/
def parseCookies (header : String) : List (String × String) :=
  (splitOnChar ';' header.toList).foldl
    (fun acc cookie =>
      match splitOnChar '=' (trimList cookie) with
      | [] => acc
      | [_] => acc
      | key :: rest =>
          acc ++ [(String.mk (trimList key), String.mk (joinChar '=' rest))])
    []

/-- Lookup in the cookie object: the last assignment to a key wins. -/
def jsCookieLookup (l : List (String × String)) (k : String) : Option String :=
  (l.reverse.find? (fun p => p.1 = k)).map (fun p => p.2)

/-- Index of the last `.` in a character list, if any
(`lastIndexOf('.')`, with `-1` mapped to `none`). -/
def lastDotIndex (cs : List Char) : Option Nat :=
  (List.range cs.length).reverse.find? (fun i => cs.get? i == some '.')

/-- `decodeSessionId(signedCookie)`: for a signed cookie `s:payload.sig`,
the session id is the payload before the last `.` (which must not sit at
position 0); otherwise fall back to URL-decoding the raw cookie, rejecting
an empty result.  `decodeURI` stands for the runtime's `decodeURIComponent`,
with `none` modelling a decoding exception (caught, yielding `null`). -/
def decodeSessionId (decodeURI : String → Option String)
    (signedCookie : String) : Option String :=
  match signedCookie.toList with
  | 's' :: ':' :: unsigned =>
      match lastDotIndex unsigned with
      | some i => if 0 < i then some (String.mk (unsigned.take i)) else none
      | none => none
  | _ =>
      match decodeURI signedCookie with
      | some d => if d.length > 0 then some d else none
      | none => none

/-- `sessionData.passport?.user`: the authenticated principal of a session
record.  `claimsSub` is `user.claims.sub` (`none` when `claims` or `sub`
is absent); `expiresAt` is `user.expires_at` in epoch seconds. -/
structure SessionUser where
  claimsSub : Option String
  expiresAt : Option Nat
deriving DecidableEq, Repr

/-- A session record in the external store. -/
structure SessionRecord where
  passportUser : Option SessionUser
deriving DecidableEq, Repr

/-- `getSessionData(sessionId)`: a session-store error resolves to `null`
exactly like a store miss (fail closed). -/
def getSessionData (store : String → Except Unit (Option SessionRecord))
    (sessionId : String) : Option SessionRecord :=
  match store sessionId with
  | Except.error _ => none
  | Except.ok s => s

/-- `authenticateConnection(ws, req)`: the full chain from the raw cookie
header to a verified `(userId, sessionId)` pair, `none` on any rejection.
`now` is `Math.floor(Date.now() / 1000)`.  The expiry guard is
`if (user.expires_at && now > user.expires_at)`: number truthiness, so a
zero timestamp skips the guard. -/
def authenticateConnection (decodeURI : String → Option String)
    (store : String → Except Unit (Option SessionRecord)) (now : Nat)
    (cookieHeader : String) : Option (String × String) :=
  match jsCookieLookup (parseCookies cookieHeader) "connect.sid" with
  | none => none
  | some sessionCookie =>
      if sessionCookie = "" then none
      else
        match decodeSessionId decodeURI sessionCookie with
        | none => none
        | some sessionId =>
            match getSessionData store sessionId with
            | none => none
            | some sessionData =>
                match sessionData.passportUser with
                | none => none
                | some user =>
                    match user.claimsSub with
                    | none => none
                    | some sub =>
                        if sub = "" then none
                        else
                          match user.expiresAt with
                          | some e =>
                              if e ≠ 0 ∧ e < now then none
                              else some (sub, sessionId)
                          | none => some (sub, sessionId)

/-! ## Client-side hook (`useSocket.ts`) -/

/-- Client subscription bookkeeping: the `pending` and `active`
subscription `Set`s and the reconnect attempt counter. -/
structure ClientState where
  pending : List Nat
  active : List Nat
  reconnectAttempts : Nat
deriving DecidableEq, Repr

/-- `maxReconnectAttempts` in `useSocket.ts`. -/
def maxReconnectAttempts : Nat := 5

/-- `ws.onclose` handler: move every active subscription back to pending,
clear `active`, and — when the closure code is not 1000 and the attempt
ceiling is not reached — bump the counter and schedule a reconnect after
`Math.min(1000 * Math.pow(2, attempts), 30000)` ms.  Returns the new state
and the scheduled delay (`none` = no reconnect scheduled). -/
def onClose (st : ClientState) (code : Nat) : ClientState × Option Nat :=
  let pending' := st.active.foldl jsSetAdd st.pending
  let st' : ClientState := { st with pending := pending', active := [] }
  if code ≠ 1000 ∧ st.reconnectAttempts < maxReconnectAttempts then
    let a := st.reconnectAttempts + 1
    ({ st' with reconnectAttempts := a }, some (min (1000 * 2 ^ a) 30000))
  else (st', none)

/-- The `subscriptionReadyTimeoutRef` callback that fires 200 ms after
`onopen` and transitions the hook to `authenticated`: it unions `pending`
and `active` (pending first, as in `new Set([...pendingSubs,
...activeSubs])`), clears `pending`, and sends one `subscribe` per id of
the union.  Returns the new state and the job ids sent, in order (sends
are modelled as succeeding; a throwing send would re-queue the id). -/
def onAuthenticatedFlush (st : ClientState) : ClientState × List Nat :=
  let allSubs := st.active.foldl jsSetAdd st.pending
  ({ st with pending := [] }, allSubs)

/-- `subscribeToJob(jobId)`: always add to `active`; if the socket is ready
(`OPEN`, `connectionReady`, state `authenticated`) send immediately and on
success drop the id from `pending` (on a failed send, queue it); otherwise
queue the id in `pending`. -/
def subscribeToJob (st : ClientState) (socketReady : Bool) (sendOk : Bool)
    (jobId : Nat) : ClientState :=
  let st1 : ClientState := { st with active := jsSetAdd st.active jobId }
  if socketReady then
    if sendOk then { st1 with pending := st1.pending.erase jobId }
    else { st1 with pending := jsSetAdd st1.pending jobId }
  else { st1 with pending := jsSetAdd st1.pending jobId }

/-- `ws.onmessage` on a `subscribed` confirmation for `jobId`: add to
`active`, remove from `pending`. -/
def onSubscribedMsg (st : ClientState) (jobId : Nat) : ClientState :=
  { st with active := jsSetAdd st.active jobId,
            pending := st.pending.erase jobId }

/-- `unsubscribeFromJob(jobId)`: remove the id from both sets (and, when
connected, send an `unsubscribe` request — not modelled, no state effect). -/
def unsubscribeFromJob (st : ClientState) (jobId : Nat) : ClientState :=
  { st with active := st.active.erase jobId,
            pending := st.pending.erase jobId }

/-! ## Helper lemmas -/

theorem mem_jsSetAdd {s : List Nat} {x y : Nat} :
    y ∈ jsSetAdd s x ↔ y ∈ s ∨ y = x := by
  unfold jsSetAdd
  split
  · rename_i h
    constructor
    · exact Or.inl
    · rintro (h' | rfl)
      · exact h'
      · exact h
  · simp

theorem jsSetAdd_of_mem {s : List Nat} {x : Nat} (h : x ∈ s) :
    jsSetAdd s x = s := by
  unfold jsSetAdd
  simp [h]

theorem mem_jsSetAdd_self {s : List Nat} {x : Nat} : x ∈ jsSetAdd s x :=
  mem_jsSetAdd.mpr (Or.inr rfl)

theorem jsSetAdd_length_le {s : List Nat} {x : Nat} :
    (jsSetAdd s x).length ≤ s.length + 1 := by
  unfold jsSetAdd
  split
  · omega
  · simp

theorem nodup_jsSetAdd {s : List Nat} {x : Nat} (h : s.Nodup) :
    (jsSetAdd s x).Nodup := by
  unfold jsSetAdd
  split
  · exact h
  · rename_i hx
    refine List.Nodup.append h (List.nodup_singleton x) ?_
    intro a ha hax
    rw [List.mem_singleton] at hax
    exact hx (hax ▸ ha)

theorem mem_foldl_jsSetAdd {l s : List Nat} {x : Nat} :
    x ∈ l.foldl jsSetAdd s ↔ x ∈ s ∨ x ∈ l := by
  induction l generalizing s with
  | nil => simp
  | cons a t ih =>
      simp only [List.foldl_cons, ih, mem_jsSetAdd, List.mem_cons]
      tauto

theorem nodup_foldl_jsSetAdd {l s : List Nat} (h : s.Nodup) :
    (l.foldl jsSetAdd s).Nodup := by
  induction l generalizing s with
  | nil => exact h
  | cons a t ih => exact ih (nodup_jsSetAdd h)

theorem cleanupSubscriptions_apply (m : SubMap) (ws k : Nat) :
    cleanupSubscriptions m ws k
      = match m k with
        | none => none
        | some s => if s.erase ws = [] then none else some (s.erase ws) :=
  rfl

/-! ## Claim theorems -/

/-- C4. After `cleanupSubscriptions(ws)` runs on a registry whose subscriber
sets are genuine sets (duplicate-free), `ws` is a member of no job's
subscriber set, no job id maps to an empty subscriber set, and running the
cleanup a second time for the same connection leaves the registry
unchanged (idempotence). -/
theorem cleanupSubscriptions_spec (m : SubMap) (ws : Nat)
    (hnd : ∀ k s, m k = some s → s.Nodup) :
    (∀ k s, cleanupSubscriptions m ws k = some s → ws ∉ s)
    ∧ (∀ k, cleanupSubscriptions m ws k ≠ some [])
    ∧ cleanupSubscriptions (cleanupSubscriptions m ws) ws
        = cleanupSubscriptions m ws := by
  refine ⟨?_, ?_, ?_⟩
  · intro k s hk
    rw [cleanupSubscriptions_apply] at hk
    cases hm : m k with
    | none => rw [hm] at hk; exact absurd hk (by simp)
    | some s0 =>
        rw [hm] at hk
        dsimp only at hk
        by_cases he : s0.erase ws = []
        · rw [if_pos he] at hk
          exact absurd hk (by simp)
        · rw [if_neg he] at hk
          cases hk
          exact fun hmem => ((hnd k s0 hm).mem_erase_iff.mp hmem).1 rfl
  · intro k hk
    rw [cleanupSubscriptions_apply] at hk
    cases hm : m k with
    | none => rw [hm] at hk; exact absurd hk (by simp)
    | some s0 =>
        rw [hm] at hk
        dsimp only at hk
        by_cases he : s0.erase ws = []
        · rw [if_pos he] at hk
          exact absurd hk (by simp)
        · rw [if_neg he] at hk
          exact he (by injection hk)
  · funext k
    rw [cleanupSubscriptions_apply (cleanupSubscriptions m ws) ws k,
        cleanupSubscriptions_apply m ws k]
    cases hm : m k with
    | none => rfl
    | some s0 =>
        dsimp only
        by_cases he : s0.erase ws = []
        · rw [if_pos he]
        · rw [if_neg he]
          dsimp only
          have hnotin : ws ∉ s0.erase ws :=
            fun hmem => ((hnd k s0 hm).mem_erase_iff.mp hmem).1 rfl
          rw [List.erase_of_not_mem hnotin, if_neg he]

/-- C3. `broadcastProgress(jobId, ...)` is a total function of the registry
and the transport states (no exception escapes to the caller): when no
entry exists for `jobId` it returns the registry unchanged and attempts no
delivery (and it never creates an entry for any absent key); when an entry
exists, delivery is attempted to every subscriber with an open transport,
every connection that is not open or whose send failed is absent from the
surviving set, the surviving set is exactly the one-pass filter of the
original (computed after the sweep, not during it), an entry emptied by
pruning is deleted, and no other job's entry is touched. -/
theorem broadcastProgress_of_none {io : Nat → ConnIO} {m : SubMap}
    {jobId : Nat} (hm : m jobId = none) :
    broadcastProgress io m jobId = (m, []) := by
  unfold broadcastProgress
  rw [hm]

theorem broadcastProgress_of_nil {io : Nat → ConnIO} {m : SubMap}
    {jobId : Nat} (hm : m jobId = some []) :
    broadcastProgress io m jobId = (m, []) := by
  unfold broadcastProgress
  rw [hm]
  simp

theorem broadcastProgress_of_ne_nil {io : Nat → ConnIO} {m : SubMap}
    {jobId : Nat} {subs : List Nat} (hm : m jobId = some subs)
    (hne : subs ≠ []) :
    broadcastProgress io m jobId
      = (fun k =>
          if k = jobId then
            (if subs.filter (fun c => (io c).isOpen && !(io c).sendFails) = []
             then none
             else some (subs.filter (fun c => (io c).isOpen && !(io c).sendFails)))
          else m k,
         subs.filter (fun c => (io c).isOpen)) := by
  unfold broadcastProgress
  rw [hm]
  simp [hne]

theorem broadcastProgress_spec (io : Nat → ConnIO) (m : SubMap) (jobId : Nat) :
    (m jobId = none → broadcastProgress io m jobId = (m, []))
    ∧ (∀ k, m k = none → (broadcastProgress io m jobId).1 k = none)
    ∧ (∀ subs, m jobId = some subs →
        (∀ c ∈ subs, (io c).isOpen = true →
            c ∈ (broadcastProgress io m jobId).2)
        ∧ (∀ c ∈ subs, ((io c).isOpen = false ∨ (io c).sendFails = true) →
            ∀ l, (broadcastProgress io m jobId).1 jobId = some l → c ∉ l)
        ∧ (subs ≠ [] → ∀ l, (broadcastProgress io m jobId).1 jobId = some l →
            l ≠ []
            ∧ l = subs.filter (fun c => (io c).isOpen && !(io c).sendFails)))
    ∧ (∀ k, k ≠ jobId → (broadcastProgress io m jobId).1 k = m k) := by
  refine ⟨fun h => broadcastProgress_of_none h, ?_, ?_, ?_⟩
  · intro k hk
    cases hm : m jobId with
    | none => rw [broadcastProgress_of_none hm]; exact hk
    | some subs =>
        by_cases hne : subs = []
        · subst hne
          rw [broadcastProgress_of_nil hm]
          exact hk
        · rw [broadcastProgress_of_ne_nil hm hne]
          simp only
          by_cases hkj : k = jobId
          · subst hkj
            rw [hm] at hk
            exact absurd hk (by simp)
          · rw [if_neg hkj]
            exact hk
  · intro subs hm
    by_cases hne : subs = []
    · subst hne
      refine ⟨by simp, by simp, fun h => absurd rfl h⟩
    · refine ⟨?_, ?_, ?_⟩
      · intro c hc hopen
        rw [broadcastProgress_of_ne_nil hm hne]
        dsimp only
        rw [List.mem_filter]
        exact ⟨hc, hopen⟩
      · intro c _ hdead l hl
        rw [broadcastProgress_of_ne_nil hm hne] at hl
        dsimp only at hl
        rw [if_pos rfl] at hl
        have hfl : l = subs.filter (fun c => (io c).isOpen && !(io c).sendFails) := by
          by_cases hf : subs.filter (fun c => (io c).isOpen && !(io c).sendFails) = []
          · rw [if_pos hf] at hl; exact absurd hl (by simp)
          · rw [if_neg hf] at hl; exact (Option.some.inj hl).symm
        subst hfl
        intro hmem
        have := List.of_mem_filter hmem
        rcases hdead with h | h <;> simp [h] at this
      · intro _ l hl
        rw [broadcastProgress_of_ne_nil hm hne] at hl
        dsimp only at hl
        rw [if_pos rfl] at hl
        by_cases hf : subs.filter (fun c => (io c).isOpen && !(io c).sendFails) = []
        · rw [if_pos hf] at hl; exact absurd hl (by simp)
        · rw [if_neg hf] at hl
          cases Option.some.inj hl
          exact ⟨hf, rfl⟩
  · intro k hk
    cases hm : m jobId with
    | none => rw [broadcastProgress_of_none hm]
    | some subs =>
        by_cases hne : subs = []
        · subst hne
          rw [broadcastProgress_of_nil hm]
        · rw [broadcastProgress_of_ne_nil hm hne]
          simp only
          rw [if_neg hk]

/-- C3 witness: broadcasting for a job with no registry entry returns the
registry unchanged and attempts no delivery. -/
theorem broadcastProgress_spec_witness :
    broadcastProgress (fun _ => ⟨true, false⟩) (fun _ => none) 3
      = ((fun _ => none : SubMap), []) :=
  (broadcastProgress_spec (fun _ => ⟨true, false⟩) (fun _ => none) 3).1 rfl

/-- C4 witness: cleanup on a concrete two-job registry removes connection 1
everywhere; here job 8's surviving set no longer contains it. -/
theorem cleanupSubscriptions_spec_witness :
    cleanupSubscriptions
        (fun k => if k = 7 then some [1] else if k = 8 then some [1, 2] else none)
        1 8 ≠ some [] :=
  (cleanupSubscriptions_spec
      (fun k => if k = 7 then some [1] else if k = 8 then some [1, 2] else none)
      1
      (fun k s hk => by
        by_cases h7 : k = 7
        · subst h7; simp at hk; subst hk; decide
        · by_cases h8 : k = 8
          · subst h8; simp [h7] at hk; subst hk; decide
          · simp [h7, h8] at hk)).2.1 8

theorem handleSubscription_owner_eq (ws : Conn) (jobId : Nat)
    (getJob : Nat → Except Unit (Option JobRec)) (docFetchOk : Bool)
    (m : SubMap) (job : JobRec) (u : String)
    (hauth : ws.isAuthenticated = true) (huid : ws.userId = some u)
    (hu : u ≠ "") (hjob : getJob jobId = Except.ok (some job))
    (hown : job.userId = u) :
    handleSubscription ws jobId getJob docFetchOk m
      = ((fun k => if k = jobId then some (jsSetAdd ((m jobId).getD []) ws.id)
                   else m k),
         Msg.subscribed jobId "Successfully subscribed to job updates" ::
           (if docFetchOk then
             [Msg.progress jobId (jsOrStr job.status "PENDING")
                ((job.progress).getD 0) (jsOrStr job.currentStep "Starting...")
                (jsOrNull job.errorMessage)]
            else [Msg.error "Failed to subscribe to job updates"])) := by
  unfold handleSubscription
  rw [huid, hjob]
  have hguard : ¬(ws.isAuthenticated = false ∨ jsTruthyStr (some u) = false) := by
    simp [hauth, jsTruthyStr, hu]
  rw [if_neg hguard]
  dsimp only
  have hcond : ¬(some job.userId ≠ some u) := by simp [hown]
  rw [if_neg hcond]
  cases docFetchOk <;> simp

/-- C1. A subscribe by a connection authenticated as `u` for an existing
stored job owned by a different user always replies with the
`Unauthorized` error and leaves the registry — in particular the job's
subscriber set — untouched.  The registry `m` and the job store `getJob`
are arbitrary, so the statement holds on every call, including calls made
after an earlier successful subscribe: the ownership check is re-run
against the currently stored job each time. -/
theorem handleSubscription_unauthorized_spec (ws : Conn) (jobId : Nat)
    (getJob : Nat → Except Unit (Option JobRec)) (docFetchOk : Bool)
    (m : SubMap) (job : JobRec) (u : String)
    (hauth : ws.isAuthenticated = true) (huid : ws.userId = some u)
    (hu : u ≠ "") (hjob : getJob jobId = Except.ok (some job))
    (hown : job.userId ≠ u) :
    handleSubscription ws jobId getJob docFetchOk m
      = (m, [Msg.error "Unauthorized: You can only access your own jobs"]) := by
  unfold handleSubscription
  rw [huid, hjob]
  have hguard : ¬(ws.isAuthenticated = false ∨ jsTruthyStr (some u) = false) := by
    simp [hauth, jsTruthyStr, hu]
  rw [if_neg hguard]
  dsimp only
  have hcond : some job.userId ≠ some u := by simp [hown]
  rw [if_pos hcond]

/-- C1 witness: user `u1`'s connection subscribing to job 42 owned by `u2`
gets the Unauthorized error and job 42's subscriber set is unchanged. -/
theorem handleSubscription_unauthorized_spec_witness :
    handleSubscription ⟨1, true, some "u1"⟩ 42
        (fun _ => Except.ok (some ⟨"u2", 3, none, none, none, none⟩)) true
        (fun _ => none)
      = ((fun _ => none : SubMap),
         [Msg.error "Unauthorized: You can only access your own jobs"]) :=
  handleSubscription_unauthorized_spec ⟨1, true, some "u1"⟩ 42
    (fun _ => Except.ok (some ⟨"u2", 3, none, none, none, none⟩)) true
    (fun _ => none) ⟨"u2", 3, none, none, none, none⟩ "u1"
    rfl rfl (by decide) rfl (by decide)

/-- C2. For an authenticated owner of an existing job (document fetch
succeeding), subscribe is idempotent: after two calls the registry equals
the one-call registry, the job's subscriber-set size grows by at most 1
over the initial registry, and both calls send the `subscribed`
confirmation followed immediately by a snapshot of the currently stored
status/progress/step/error fields — whose values fall back to `PENDING`,
`0`, and `"Starting..."` when the stored fields are unset. -/
theorem handleSubscription_idempotent_spec (ws : Conn) (jobId : Nat)
    (getJob : Nat → Except Unit (Option JobRec)) (m : SubMap) (job : JobRec)
    (u : String)
    (hauth : ws.isAuthenticated = true) (huid : ws.userId = some u)
    (hu : u ≠ "") (hjob : getJob jobId = Except.ok (some job))
    (hown : job.userId = u) :
    (handleSubscription ws jobId getJob true
        (handleSubscription ws jobId getJob true m).1).1
      = (handleSubscription ws jobId getJob true m).1
    ∧ (((handleSubscription ws jobId getJob true
          (handleSubscription ws jobId getJob true m).1).1 jobId).getD []).length
        ≤ ((m jobId).getD []).length + 1
    ∧ (handleSubscription ws jobId getJob true m).2
        = [Msg.subscribed jobId "Successfully subscribed to job updates",
           Msg.progress jobId (jsOrStr job.status "PENDING")
             ((job.progress).getD 0) (jsOrStr job.currentStep "Starting...")
             (jsOrNull job.errorMessage)]
    ∧ (handleSubscription ws jobId getJob true
          (handleSubscription ws jobId getJob true m).1).2
        = (handleSubscription ws jobId getJob true m).2
    ∧ (job.status = none → jsOrStr job.status "PENDING" = "PENDING")
    ∧ (job.progress = none → (job.progress).getD 0 = 0)
    ∧ (job.currentStep = none → jsOrStr job.currentStep "Starting..." = "Starting...") := by
  have h1 := handleSubscription_owner_eq ws jobId getJob true m job u
    hauth huid hu hjob hown
  have h2 := handleSubscription_owner_eq ws jobId getJob true
    (handleSubscription ws jobId getJob true m).1 job u hauth huid hu hjob hown
  have hset : ((handleSubscription ws jobId getJob true m).1 jobId).getD []
      = jsSetAdd ((m jobId).getD []) ws.id := by
    rw [h1]
    simp
  have hre : jsSetAdd (jsSetAdd ((m jobId).getD []) ws.id) ws.id
      = jsSetAdd ((m jobId).getD []) ws.id :=
    jsSetAdd_of_mem mem_jsSetAdd_self
  have hmap : (handleSubscription ws jobId getJob true
      (handleSubscription ws jobId getJob true m).1).1
      = (handleSubscription ws jobId getJob true m).1 := by
    rw [h2]
    dsimp only
    funext k
    by_cases hk : k = jobId
    · subst hk
      rw [if_pos rfl, hset, hre, h1]
      simp
    · rw [if_neg hk]
  refine ⟨hmap, ?_, by rw [h1]; rfl, by rw [h2, h1], ?_, ?_, ?_⟩
  · rw [hmap, hset]
    simpa using jsSetAdd_length_le
  · intro h; rw [h]; rfl
  · intro h; rw [h]; rfl
  · intro h; rw [h]; rfl

/-- C2 witness: the owner of job 7 (stored `PROCESSING`/60) subscribing
twice over an empty registry receives, on the first call, the confirmation
then the stored snapshot. -/
theorem handleSubscription_idempotent_spec_witness :
    (handleSubscription ⟨1, true, some "u1"⟩ 7
        (fun _ => Except.ok (some ⟨"u1", 3, some "PROCESSING", some 60,
          some "Structuring content with AI...", none⟩)) true
        (fun _ => none)).2
      = [Msg.subscribed 7 "Successfully subscribed to job updates",
         Msg.progress 7 "PROCESSING" 60 "Structuring content with AI..." none] :=
  (handleSubscription_idempotent_spec ⟨1, true, some "u1"⟩ 7
    (fun _ => Except.ok (some ⟨"u1", 3, some "PROCESSING", some 60,
      some "Structuring content with AI...", none⟩))
    (fun _ => none)
    ⟨"u1", 3, some "PROCESSING", some 60,
      some "Structuring content with AI...", none⟩ "u1"
    rfl rfl (by decide) rfl rfl).2.2.1

/-- C10. When the snapshot's document fetch rejects, the subscribe is not
rolled back: the connection was already inserted into the job's subscriber
set and already received the `subscribed` confirmation; it then receives
an error message instead of the snapshot, and the resulting registry is
exactly the one the successful path would have produced. -/
theorem handleSubscription_docfetch_fail_spec (ws : Conn) (jobId : Nat)
    (getJob : Nat → Except Unit (Option JobRec)) (m : SubMap) (job : JobRec)
    (u : String)
    (hauth : ws.isAuthenticated = true) (huid : ws.userId = some u)
    (hu : u ≠ "") (hjob : getJob jobId = Except.ok (some job))
    (hown : job.userId = u) :
    ws.id ∈ (((handleSubscription ws jobId getJob false m).1 jobId).getD [])
    ∧ (handleSubscription ws jobId getJob false m).2
        = [Msg.subscribed jobId "Successfully subscribed to job updates",
           Msg.error "Failed to subscribe to job updates"]
    ∧ (handleSubscription ws jobId getJob false m).1
        = (handleSubscription ws jobId getJob true m).1 := by
  have hf := handleSubscription_owner_eq ws jobId getJob false m job u
    hauth huid hu hjob hown
  have ht := handleSubscription_owner_eq ws jobId getJob true m job u
    hauth huid hu hjob hown
  refine ⟨?_, by rw [hf]; rfl, by rw [hf, ht]⟩
  rw [hf]
  simpa using mem_jsSetAdd_self

/-- C10 witness: concrete failing document fetch — the confirmation then
the error are sent, in that order. -/
theorem handleSubscription_docfetch_fail_spec_witness :
    (handleSubscription ⟨1, true, some "u1"⟩ 7
        (fun _ => Except.ok (some ⟨"u1", 3, none, none, none, none⟩)) false
        (fun _ => none)).2
      = [Msg.subscribed 7 "Successfully subscribed to job updates",
         Msg.error "Failed to subscribe to job updates"] :=
  (handleSubscription_docfetch_fail_spec ⟨1, true, some "u1"⟩ 7
    (fun _ => Except.ok (some ⟨"u1", 3, none, none, none, none⟩))
    (fun _ => none) ⟨"u1", 3, none, none, none, none⟩ "u1"
    rfl rfl (by decide) rfl rfl).2.1

/-- C5. Persist-then-broadcast: in the event trace of any
`updateJobProgress` call, every broadcast event is preceded by a completed
store update carrying the same status/progress/step/error fields, and the
job store obtained by running the trace up to (excluding) the broadcast
already reflects exactly those fields on the broadcast's job (when the job
row exists).  When the store update rejects, no broadcast is emitted at
all — so no broadcast-without-persisted-state is ever observable. -/
theorem updateJobProgress_persist_then_broadcast (jobId progress : Nat)
    (currentStep : String) (error : Option String) (storeOk : Bool)
    (store : Nat → Option JobRec) :
    ∀ i j st pr cs em,
      (updateJobProgress jobId progress currentStep error storeOk).get? i
        = some (Event.broadcast j st pr cs em) →
      (∃ k, k < i ∧
        (updateJobProgress jobId progress currentStep error storeOk).get? k
          = some (Event.storeUpdate j st pr cs em))
      ∧ (∀ jb,
          applyEvents store
            ((updateJobProgress jobId progress currentStep error storeOk).take i) j
            = some jb →
          jb.status = some st ∧ jb.progress = some pr
            ∧ jb.currentStep = some cs ∧ jb.errorMessage = em) := by
  intro i j st pr cs em hi
  cases storeOk with
  | false => simp [updateJobProgress] at hi
  | true =>
      match i with
      | 0 => simp [updateJobProgress] at hi
      | 1 =>
          simp only [updateJobProgress, List.get?] at hi
          rw [Option.some_inj] at hi
          cases hi
          constructor
          · exact ⟨0, by omega, by simp [updateJobProgress]⟩
          · intro jb hjb
            simp only [updateJobProgress, List.take, applyEvents, applyEvent,
              if_pos rfl] at hjb
            rcases Option.map_eq_some'.mp hjb with ⟨j0, _, hj0⟩
            rw [← hj0]
            exact ⟨rfl, rfl, rfl, rfl⟩
          | n + 2 => simp [updateJobProgress] at hi

/-- C5 witness: in the concrete trace for job 5 at progress 60, the
broadcast at index 1 is preceded by the matching store update at index 0. -/
theorem updateJobProgress_persist_then_broadcast_witness :
    ∃ k, k < 1 ∧ (updateJobProgress 5 60 "x" none true).get? k
      = some (Event.storeUpdate 5 "PROCESSING" 60 "x" none) :=
  (updateJobProgress_persist_then_broadcast 5 60 "x" none true
    (fun _ => none) 1 5 "PROCESSING" 60 "x" none rfl).1

/-- C6 counterexample: the update step has no terminal-state guard.  With
job 5 stored as `COMPLETED`, a subsequent `updateJobProgress(5, 50, "more
work")` both changes the stored job state (to `PROCESSING`) and emits a
progress broadcast — the claim says neither happens. -/
theorem updateJobProgress_after_terminal_counterexample :
    (applyEvents
        (fun k => if k = 5 then
            some ⟨"u1", 1, some "COMPLETED", some 100, some "done", none⟩
          else none)
        (updateJobProgress 5 50 "more work" none true)) 5
      ≠ some ⟨"u1", 1, some "COMPLETED", some 100, some "done", none⟩
    ∧ (updateJobProgress 5 50 "more work" none true).get? 1
        = some (Event.broadcast 5 "PROCESSING" 50 "more work" none) := by
  constructor
  · decide
  · rfl

/-- C6 (amended). The update step itself performs no terminal-state check
— a progress-update call always persists and broadcasts — but the
no-transition-after-terminal property holds of the pipeline's emission
order: in every `processVideo` execution (any failure point, any error
message), every update carrying a terminal status (`COMPLETED` or
`FAILED`) is the last update issued, so no update follows a terminal one. -/
theorem processVideo_terminal_update_is_last :
    ∀ (failAfter : Option (Fin 6)) (errMsg : String),
      (∀ x ∈ (processVideoCalls failAfter errMsg).dropLast,
        terminalStatus (progressStatus x.1 x.2.2) = false)
      ∧ (∀ (jobId progress : Nat) (currentStep : String) (error : Option String),
          (updateJobProgress jobId progress currentStep error true).get? 1
            = some (Event.broadcast jobId (progressStatus progress error)
                progress currentStep (jsOrNull error))) := by
  intro failAfter errMsg
  constructor
  · cases failAfter with
    | none =>
        simp only [processVideoCalls]
        decide
    | some k =>
        fin_cases k <;>
          · simp only [processVideoCalls, List.take, List.cons_append,
              List.nil_append, List.dropLast]
            decide
  · intro jobId progress currentStep error
    rfl

/-- C6 (amended) witness: in the run that fails after three progress calls,
the non-final update at 10% is non-terminal. -/
theorem processVideo_terminal_update_is_last_witness :
    terminalStatus (progressStatus 10 none) = false :=
  (processVideo_terminal_update_is_last (some ⟨3, by omega⟩) "boom").1
    (10, "Analyzing YouTube video...", none) (by decide)

theorem getSessionData_eq_some {store : String → Except Unit (Option SessionRecord)}
    {sid : String} {rec : SessionRecord} :
    getSessionData store sid = some rec ↔ store sid = Except.ok (some rec) := by
  unfold getSessionData
  cases h : store sid with
  | error e => simp
  | ok s => simp

/-- C7 counterexample: the session record for `abc` carries an
authenticated principal whose expiry timestamp is present (`0`) and in the
past relative to `now = 100`, yet `authenticateConnection` returns the
verified identity instead of rejecting: the JS guard
`if (user.expires_at && now > user.expires_at)` skips a zero timestamp
because `0` is falsy. -/
theorem authenticateConnection_expiry_zero_counterexample :
    authenticateConnection (fun s => some s)
        (fun sid => if sid = "abc" then
            Except.ok (some ⟨some ⟨some "user1", some 0⟩⟩)
          else Except.ok none)
        100 "connect.sid=s:abc.sig"
      = some ("user1", "abc")
    ∧ ((fun sid => if sid = "abc" then
            Except.ok (some (⟨some ⟨some "user1", some 0⟩⟩ : SessionRecord))
          else Except.ok none : String → Except Unit (Option SessionRecord)) "abc"
        = Except.ok (some ⟨some ⟨some "user1", some 0⟩⟩))
    ∧ (0 : Nat) < 100 :=
  ⟨by decide, rfl, by decide⟩

/-- C7 (amended). `authenticateConnection` returns a verified
`(userId, sessionId)` pair exactly when the cookie header yields a
non-empty session cookie that decodes to a session identifier, the session
store lookup succeeds with a record, the record contains an authenticated
principal with a non-empty subject, and the principal's expiry timestamp —
when present and nonzero (JS truthiness) — is not in the past; in every
other case the result is a rejection.  A session-store error in particular
is treated exactly as a lookup miss (fail closed): if the decoded session
id's store lookup errors, authentication rejects. -/
theorem authenticateConnection_spec (decodeURI : String → Option String)
    (store : String → Except Unit (Option SessionRecord)) (now : Nat) :
    (∀ u sid cookieHeader,
      authenticateConnection decodeURI store now cookieHeader = some (u, sid)
        ↔ ∃ sc user,
            jsCookieLookup (parseCookies cookieHeader) "connect.sid" = some sc
            ∧ sc ≠ ""
            ∧ decodeSessionId decodeURI sc = some sid
            ∧ (∃ rec, store sid = Except.ok (some rec)
                ∧ rec.passportUser = some user)
            ∧ user.claimsSub = some u
            ∧ u ≠ ""
            ∧ (∀ e, user.expiresAt = some e → e = 0 ∨ ¬ e < now))
    ∧ (∀ sc sid cookieHeader,
        jsCookieLookup (parseCookies cookieHeader) "connect.sid" = some sc →
        sc ≠ "" →
        decodeSessionId decodeURI sc = some sid →
        store sid = Except.error () →
        authenticateConnection decodeURI store now cookieHeader = none) := by
  constructor
  · intro u sid cookieHeader
    constructor
    · intro h
      unfold authenticateConnection at h
      cases hsc : jsCookieLookup (parseCookies cookieHeader) "connect.sid" with
      | none => rw [hsc] at h; exact absurd h (by simp)
      | some sc =>
          rw [hsc] at h
          dsimp only at h
          by_cases hsce : sc = ""
          · rw [if_pos hsce] at h; exact absurd h (by simp)
          · rw [if_neg hsce] at h
            cases hdec : decodeSessionId decodeURI sc with
            | none => rw [hdec] at h; exact absurd h (by simp)
            | some sid1 =>
                rw [hdec] at h
                dsimp only at h
                cases hsd : getSessionData store sid1 with
                | none => rw [hsd] at h; exact absurd h (by simp)
                | some rec =>
                    rw [hsd] at h
                    dsimp only at h
                    cases hpu : rec.passportUser with
                    | none => rw [hpu] at h; exact absurd h (by simp)
                    | some user =>
                        rw [hpu] at h
                        dsimp only at h
                        cases hcs : user.claimsSub with
                        | none => rw [hcs] at h; exact absurd h (by simp)
                        | some sub =>
                            rw [hcs] at h
                            dsimp only at h
                            by_cases hse : sub = ""
                            · rw [if_pos hse] at h; exact absurd h (by simp)
                            · rw [if_neg hse] at h
                              cases hea : user.expiresAt with
                              | none =>
                                  rw [hea] at h
                                  rw [Option.some_inj, Prod.ext_iff] at h
                                  obtain ⟨h1, h2⟩ := h
                                  dsimp only at h1 h2
                                  subst h1
                                  subst h2
                                  exact ⟨sc, user, rfl, hsce, hdec,
                                    ⟨rec, getSessionData_eq_some.mp hsd, hpu⟩,
                                    hcs, hse, by simp [hea]⟩
                              | some e =>
                                  rw [hea] at h
                                  dsimp only at h
                                  by_cases hg : e ≠ 0 ∧ e < now
                                  · rw [if_pos hg] at h
                                    exact absurd h (by simp)
                                  · rw [if_neg hg] at h
                                    rw [Option.some_inj, Prod.ext_iff] at h
                                    obtain ⟨h1, h2⟩ := h
                                    dsimp only at h1 h2
                                    subst h1
                                    subst h2
                                    refine ⟨sc, user, rfl, hsce, hdec,
                                      ⟨rec, getSessionData_eq_some.mp hsd, hpu⟩,
                                      hcs, hse, ?_⟩
                                    intro e1 he1
                                    rw [hea, Option.some_inj] at he1
                                    subst he1
                                    rcases Decidable.not_and_iff_or_not.mp hg
                                      with h0 | hlt
                                    · exact Or.inl (by simpa using h0)
                                    · exact Or.inr hlt
    · rintro ⟨sc, user, hsc, hsce, hdec, ⟨rec, hst, hpu⟩, hcs, hse, hexp⟩
      unfold authenticateConnection
      rw [hsc]
      dsimp only
      rw [if_neg hsce, hdec]
      dsimp only
      rw [getSessionData_eq_some.mpr hst]
      dsimp only
      rw [hpu]
      dsimp only
      rw [hcs]
      dsimp only
      rw [if_neg hse]
      cases hea : user.expiresAt with
      | none => rfl
      | some e =>
          dsimp only
          have : ¬(e ≠ 0 ∧ e < now) := by
            rcases hexp e hea with h0 | hlt
            · exact fun hc => hc.1 h0
            · exact fun hc => hlt hc.2
          rw [if_neg this]
  · intro sc sid cookieHeader hsc hsce hdec herr
    unfold authenticateConnection
    rw [hsc]
    dsimp only
    rw [if_neg hsce, hdec]
    dsimp only
    have : getSessionData store sid = none := by
      unfold getSessionData
      rw [herr]
    rw [this]

/-- C7 (amended) witness: a fully valid session (non-empty principal, no
expiry) authenticates, and the characterization's conditions hold for it. -/
theorem authenticateConnection_spec_witness :
    ∃ sc user,
      jsCookieLookup (parseCookies "connect.sid=s:abc.sig") "connect.sid"
        = some sc
      ∧ sc ≠ ""
      ∧ decodeSessionId (fun s => some s) sc = some "abc"
      ∧ (∃ rec, (fun sid => if sid = "abc" then
            Except.ok (some (⟨some ⟨some "user1", none⟩⟩ : SessionRecord))
          else Except.ok none : String → Except Unit (Option SessionRecord)) "abc"
            = Except.ok (some rec)
          ∧ rec.passportUser = some user)
      ∧ user.claimsSub = some "user1"
      ∧ "user1" ≠ ""
      ∧ (∀ e, user.expiresAt = some e → e = 0 ∨ ¬ e < 100) :=
  ((authenticateConnection_spec (fun s => some s)
      (fun sid => if sid = "abc" then
          Except.ok (some ⟨some ⟨some "user1", none⟩⟩)
        else Except.ok none)
      100).1 "user1" "abc" "connect.sid=s:abc.sig").mp (by decide)

/-- C8. On a non-normal disconnect, every job id in the active set moves to
the pending set and the active set is cleared; while fewer than 5 attempts
have been made, a reconnect is scheduled after
`min(1000 * 2 ^ attempt, 30000)` ms (base 1000 ms, doubling per attempt,
capped at 30000 ms), and after the 5th attempt no further reconnect is
scheduled; when the reconnected client reaches the authenticated state,
it sends exactly one subscribe request for each job id in the union of the
pending and active sets. -/
theorem useSocket_reconnect_spec (st : ClientState) (code : Nat)
    (hcode : code ≠ 1000) (hp : st.pending.Nodup) :
    (∀ j ∈ st.active, j ∈ (onClose st code).1.pending)
    ∧ (onClose st code).1.active = []
    ∧ (st.reconnectAttempts < maxReconnectAttempts →
          (onClose st code).2
              = some (min (1000 * 2 ^ (st.reconnectAttempts + 1)) 30000)
          ∧ (onClose st code).1.reconnectAttempts = st.reconnectAttempts + 1)
    ∧ (maxReconnectAttempts ≤ st.reconnectAttempts → (onClose st code).2 = none)
    ∧ (∀ j, ((onAuthenticatedFlush (onClose st code).1).2).count j
          = if j ∈ st.pending ∨ j ∈ st.active then 1 else 0) := by
  have hclose1 : (onClose st code).1.pending
      = st.active.foldl jsSetAdd st.pending := by
    unfold onClose
    split <;> rfl
  have hclose2 : (onClose st code).1.active = [] := by
    unfold onClose
    split <;> rfl
  refine ⟨?_, hclose2, ?_, ?_, ?_⟩
  · intro j hj
    rw [hclose1]
    exact mem_foldl_jsSetAdd.mpr (Or.inr hj)
  · intro hlt
    unfold onClose
    rw [if_pos ⟨hcode, hlt⟩]
    exact ⟨rfl, rfl⟩
  · intro hge
    unfold onClose
    rw [if_neg (fun hc => absurd hc.2 (by omega))]
  · intro j
    have hflush : (onAuthenticatedFlush (onClose st code).1).2
        = (onClose st code).1.active.foldl jsSetAdd (onClose st code).1.pending :=
      rfl
    rw [hflush, hclose1, hclose2]
    simp only [List.foldl_nil]
    by_cases hmem : j ∈ st.pending ∨ j ∈ st.active
    · rw [if_pos hmem]
      exact List.count_eq_one_of_mem (nodup_foldl_jsSetAdd hp)
        (mem_foldl_jsSetAdd.mpr hmem)
    · rw [if_neg hmem]
      exact List.count_eq_zero_of_not_mem
        (fun hc => hmem (mem_foldl_jsSetAdd.mp hc))

/-- C8 witness: active = {7, 9}, abnormal close 1006 at attempt 0 → after
the authenticated flush, job 9 is subscribed exactly once. -/
theorem useSocket_reconnect_spec_witness :
    ((onAuthenticatedFlush (onClose ⟨[], [7, 9], 0⟩ 1006).1).2).count 9
      = if 9 ∈ ([] : List Nat) ∨ 9 ∈ [7, 9] then 1 else 0 :=
  (useSocket_reconnect_spec ⟨[], [7, 9], 0⟩ 1006 (by decide)
    (by decide)).2.2.2.2 9

/-- C9 counterexample: `subscribeToJob(7)` issued while the socket is not
ready places job 7 in the pending set and in the active set
simultaneously, contradicting the claimed exactly-one-set invariant. -/
theorem subscribeToJob_both_sets_counterexample :
    7 ∈ (subscribeToJob ⟨[], [], 0⟩ false true 7).pending
    ∧ 7 ∈ (subscribeToJob ⟨[], [], 0⟩ false true 7).active := by
  constructor <;> decide

/-- C9 (amended). The pending and active sets are not mutually exclusive:
`subscribeToJob` always inserts the job id into `active` and additionally
queues it in `pending` when the socket is not ready (or a send fails).
What does hold: after `subscribeToJob(J)`, `J` is in `active`; after a
`subscribed` confirmation for `J`, `J` is in `active` and not in
`pending`; a disconnect moves every active id into `pending`; and
`unsubscribeFromJob(J)` removes `J` from both sets. -/
theorem clientSets_amended_spec :
    (∀ (st : ClientState) (socketReady sendOk : Bool) (jobId : Nat),
      jobId ∈ (subscribeToJob st socketReady sendOk jobId).active)
    ∧ (∀ (st : ClientState) (jobId : Nat),
        jobId ∈ (onSubscribedMsg st jobId).active
        ∧ (st.pending.Nodup → jobId ∉ (onSubscribedMsg st jobId).pending))
    ∧ (∀ (st : ClientState) (code jobId : Nat),
        jobId ∈ st.active → jobId ∈ (onClose st code).1.pending)
    ∧ (∀ (st : ClientState) (jobId : Nat),
        st.pending.Nodup → st.active.Nodup →
        jobId ∉ (unsubscribeFromJob st jobId).pending
          ∧ jobId ∉ (unsubscribeFromJob st jobId).active) := by
  refine ⟨?_, ?_, ?_, ?_⟩
  · intro st socketReady sendOk jobId
    unfold subscribeToJob
    cases socketReady <;> cases sendOk <;>
      exact mem_jsSetAdd_self
  · intro st jobId
    refine ⟨mem_jsSetAdd_self, ?_⟩
    intro hp hmem
    exact (hp.mem_erase_iff.mp hmem).1 rfl
  · intro st code jobId hj
    have hclose1 : (onClose st code).1.pending
        = st.active.foldl jsSetAdd st.pending := by
      unfold onClose
      split <;> rfl
    rw [hclose1]
    exact mem_foldl_jsSetAdd.mpr (Or.inr hj)
  · intro st jobId hp ha
    exact ⟨fun hmem => (hp.mem_erase_iff.mp hmem).1 rfl,
      fun hmem => (ha.mem_erase_iff.mp hmem).1 rfl⟩

/-- C9 (amended) witness: from the concrete both-sets state, the
`subscribed` confirmation for job 7 leaves it in `active` only. -/
theorem clientSets_amended_spec_witness :
    7 ∈ (onSubscribedMsg ⟨[7], [7], 0⟩ 7).active
    ∧ 7 ∉ (onSubscribedMsg ⟨[7], [7], 0⟩ 7).pending :=
  ⟨(clientSets_amended_spec.2.1 ⟨[7], [7], 0⟩ 7).1,
   (clientSets_amended_spec.2.1 ⟨[7], [7], 0⟩ 7).2 (by decide)⟩

end Livo
